import Mathlib

/-!
Verification of the convention-based code generator (model-api-gen and
swagger-gen generator packages) against its natural-language specification.

The Go sources are shallowly embedded: gengo's `types.Type` metadata becomes
the inductive `GoType`, the field projector of
`pkg/model-api-gen/generators/apigen.go` becomes pure functions returning
`Except String _` (a `klog.Fatalf` call is modelled as `.error`), and the
route/parameter/response synthesizer of
`pkg/swagger-gen/generators/helper.go` together with the method convention
matcher becomes pure functions over explicit method tables.  A Go map's
enumeration order is represented by the order of an association list.
-/

namespace CodeGen

/-- gengo type kinds (k8s.io/gengo/types.Kind), restricted to the kinds the
generator dispatches on. -/
inductive Kind where
  | Builtin
  | Struct
  | Interface
  | Alias
  | Pointer
  | Slice
  | MapK
  | Chan
  | Func
  | DeclarationOf
  deriving DecidableEq, Repr

/-- gengo types.Name: a package path and a local type name. -/
structure TypeName where
  pkg  : String
  name : String
  deriving DecidableEq, Repr

/-- Shallow embedding of gengo `types.Type`: the name, the kind, and — split
over constructors so the recursion is direct — the optional element type
(`Elem`, set for Pointer/Slice/Map/Chan) or the optional underlying type
(`Underlying`, set for Alias).  `atom` is a type with neither field set.
Struct members and the method table are carried separately where needed,
mirroring how the generator walks them. -/
inductive GoType where
  | atom (name : TypeName) (kind : Kind)
  | compound (name : TypeName) (kind : Kind) (elem : GoType)
  | alias (name : TypeName) (kind : Kind) (underlying : GoType)
  deriving DecidableEq, Repr

def GoType.name : GoType → TypeName
  | .atom n _ => n
  | .compound n _ _ => n
  | .alias n _ _ => n

def GoType.kind : GoType → Kind
  | .atom _ k => k
  | .compound _ k _ => k
  | .alias _ k _ => k

/-- gengo `Type.Elem` (nil modelled as `none`). -/
def GoType.elem : GoType → Option GoType
  | .compound _ _ e => some e
  | _ => none

/-- gengo `Type.Underlying` (nil modelled as `none`). -/
def GoType.underlying : GoType → Option GoType
  | .alias _ _ u => some u
  | _ => none

/-- gengo `types.Member`: a struct member of the source model type.
(Named `GoMember` because `Member` below embeds the generator's own field
builder of the same name.) -/
structure GoMember where
  name     : String
  embedded : Bool
  type     : GoType
  deriving DecidableEq, Repr

/-- apigen.go `underlyingType`: chase `Underlying` while the kind is Alias. -/
def underlyingType : GoType → GoType
  | .alias _ .Alias u => underlyingType u
  | t => t

/-- gengo `types.Type.String()`: the package-qualified name. -/
def TypeName.str (n : TypeName) : String :=
  if n.pkg == "" then n.name else n.pkg ++ "." ++ n.name

def isUpperAZ (c : Char) : Bool :=
  65 ≤ c.toNat && c.toNat ≤ 90

def lowerAZ (c : Char) : Char :=
  if isUpperAZ c then Char.ofNat (c.toNat + 32) else c

/-- Worker for `CamelSplit`: a new word starts at an upper-case character that
follows a non-upper-case character. -/
def camelSplitGo (sep : String) : Option Char → List Char → String → String
  | _, [], acc => acc
  | prev, c :: rest, acc =>
    let boundary :=
      match prev with
      | some p => isUpperAZ c && !isUpperAZ p
      | none => false
    camelSplitGo sep (some c) rest ((if boundary then acc ++ sep else acc).push (lowerAZ c))

/-- Modelled from the spec: `utils.CamelSplit` lives in the external library
`yunion.io/x/pkg/utils` (not under src/); the spec describes it as
"snake-casing the original field name" and "re-casing" an action name: a
CamelCase identifier is split into lower-case words joined by `sep`. -/
def CamelSplit (s sep : String) : String :=
  camelSplitGo sep none s.data ""

/-- `strings.HasPrefix` on character lists: `listIsPre pre s`. -/
def listIsPre : List Char → List Char → Bool
  | [], _ => true
  | _ :: _, [] => false
  | a :: as, b :: bs => a == b && listIsPre as bs

/-- Go `strings.HasPrefix(s, pre)`. -/
def stringHasPre (pre s : String) : Bool := listIsPre pre.data s.data

/-- Go `strings.TrimPrefix(s, pre)`. -/
def stringTrimPre (s pre : String) : String :=
  if stringHasPre pre s then ⟨s.data.drop pre.data.length⟩ else s

/-- Bytewise-lexicographic comparison of character lists: the order
`sort.Strings` uses (UTF-8 byte order coincides with code-point order). -/
def strLtB : List Char → List Char → Bool
  | [], [] => false
  | [], _ :: _ => true
  | _ :: _, [] => false
  | a :: as, b :: bs =>
    if a.toNat < b.toNat then true
    else if b.toNat < a.toNat then false
    else strLtB as bs

/-- The string order under which `(sets.String).List()` returns members. -/
def stringLt (a b : String) : Bool := strLtB a.data b.data

/-- `insertTag` inserts a string into a sorted duplicate-free list, modelling
one insertion into a `sets.String`. -/
def insertTag (x : String) : List String → List String
  | [] => [x]
  | y :: ys =>
    if x = y then y :: ys
    else if stringLt x y then x :: y :: ys
    else y :: insertTag x ys

/-- `setOfList xs init` folds `xs` into the sorted set `init`; `setOfList xs []`
models `sets.NewString(xs...)`, and the result of `setOfList` models
`(sets.String).List()` which returns the members in sorted order. -/
def setOfList (xs : List String) (init : List String) : List String :=
  xs.foldl (fun acc x => insertTag x acc) init

/-- apigen.go `Member`: the builder for one emitted field of the derived API
struct. -/
structure Member where
  name     : String
  jsonTags : List String
  mType    : String
  namer    : String
  embedded : Bool
  deriving DecidableEq, Repr

/-- apigen.go `NewMember`. -/
def NewMember (name : String) : Member :=
  { name := name, jsonTags := [], mType := "", namer := "raw", embedded := false }

/-- apigen.go `(*Member).Type`: override the emitted type expression.
(Named `setType` because `Type` is a Lean keyword.) -/
def Member.setType (m : Member) (mType : String) : Member :=
  { m with mType := mType }

/-- apigen.go `(*Member).Namer`. -/
def Member.Namer (m : Member) (namer : String) : Member :=
  { m with namer := namer }

/-- apigen.go `(*Member).Embedded`. -/
def Member.Embedded (m : Member) : Member :=
  { m with embedded := true }

/-- apigen.go `(*Member).AddTag`: `sets.NewString(tags...)`, then
`Insert(m.jsonTags...)`, then `List()` (sorted, de-duplicated). -/
def Member.AddTag (m : Member) (tags : List String) : Member :=
  { m with jsonTags := setOfList m.jsonTags (setOfList tags []) }

/-- apigen.go `(*Member).NoTag`. -/
def Member.NoTag (m : Member) : Member :=
  { m with jsonTags := [] }

/-- apigen.go `NewModelMember`: the JSON tag is the snake-cased field name. -/
def NewModelMember (name : String) : Member :=
  (NewMember name).AddTag [CamelSplit name "_"]

/-- The type expression part handed to the snippet writer by `Member.Do`:
either the override string `m.mType`, or the template `$.type|namer$` to be
expanded against the argument type. -/
inductive TypeExpr where
  | override (s : String)
  | template (namer : String) (args : Option GoType)
  deriving DecidableEq, Repr

/-- One emitted field of the derived API struct, as written by
`(*Member).Do`. -/
structure Field where
  name     : String
  embedded : Bool
  typeExpr : TypeExpr
  tags     : List String
  deriving DecidableEq, Repr

/-- apigen.go `(*Member).Do`: build the emitted field.  The `args` parameter
is the type handed to the snippet writer for template expansion. -/
def Member.Do (m : Member) (args : Option GoType) : Field :=
  { name := m.name
    embedded := m.embedded
    typeExpr := if m.mType != "" then .override m.mType else .template m.namer args
    tags := m.jsonTags }

/-- The text inside the generated `json:"..."` annotation:
`strings.Join(m.jsonTags, ",")` in `(*Member).Do`. -/
def Field.tagString (f : Field) : String :=
  String.intercalate "," f.tags

/-! ## The field projector (pkg/model-api-gen/generators/apigen.go) -/

def SModelBase : String := "SModelBase"

def CloudCommonDBPackage : String := "yunion.io/x/onecloud/pkg/cloudcommon/db"

def CloudProviderPackage : String := "yunion.io/x/onecloud/pkg/cloudprovider"

/-- `filepath.Base`: the last path component.  (The generator only applies it
to clean slash-separated package paths, where it is the text after the last
slash.) -/
def filepathBase (p : String) : String :=
  (p.splitOn "/").getLastD p

/-- `filepath.Join` on the already-clean package paths the generator uses. -/
def filepathJoin (a b : String) : String :=
  a ++ "/" ++ b

/-- apigen.go `GetInputOutputPackageMap`. -/
def GetInputOutputPackageMap (apisPkg : String) : List (String × String) :=
  [(CloudCommonDBPackage, apisPkg),
   (CloudProviderPackage, filepathJoin apisPkg "cloudprovider")]

/-- The `apiGen` generator state the field projector reads (the import
tracker and `needImportPackages`, which only feed the emitted import block,
are not modelled). -/
structure apiGen where
  sourcePackage : String
  apisPkg       : String
  deriving DecidableEq, Repr

/-- Modelled from the spec: `common.InSourcePackage` (pkg/common, a package of
this repository not present under src/).  The spec speaks of members "in the
same source package", so a type is in the source package when its package
path equals the generator's source package. -/
def apiGen.inSourcePackage (g : apiGen) (t : GoType) : Bool :=
  t.name.pkg == g.sourcePackage

/-- apigen.go `isModelBase`: the sentinel base type carries no projectable
fields. -/
def isModelBase (t : GoType) : Bool :=
  t.name.name == SModelBase

/-- apigen.go `TypeMap`: the hand-maintained alias override table, keyed by
the alias's local name; the value is the emitted type expression and the
extra JSON tags. -/
def TypeMap : List (String × String × List String) :=
  [("TriState", ("*bool", ["omitempty"]))]

/-- apigen.go `(*apiGen).doBuiltin`. -/
def apiGen.doBuiltin (_g : apiGen) (m : GoMember) : Except String Field :=
  .ok ((NewModelMember m.name).Do (some m.type))

/-- apigen.go `(*apiGen).doAlias`: look the alias's local name up in
`TypeMap`; otherwise emit the resolved underlying type. -/
def apiGen.doAlias (_g : apiGen) (member : GoMember) : Except String Field :=
  let mt := member.type
  match TypeMap.lookup mt.name.name with
  | some ct => .ok ((((NewModelMember member.name).AddTag ct.2).setType ct.1).Do none)
  | none => .ok ((NewModelMember member.name).Do (some (underlyingType mt)))

/-- apigen.go `(*apiGen).doSlice`: `klog.Fatalf("--slice not implement")`,
modelled as an error value that aborts the projection. -/
def apiGen.doSlice (_g : apiGen) (_member : GoMember) : Except String Field :=
  .error "--slice not implement"

/-- apigen.go `(*apiGen).doStruct`.  (The `needImportPackages.Insert` side
effect only feeds the emitted import block and is not modelled.) -/
def apiGen.doStruct (g : apiGen) (member : GoMember) : Except String Field :=
  let mt := member.type
  let m := NewModelMember member.name
  let m := if member.embedded then (m.Embedded).NoTag else m
  let m :=
    if g.inSourcePackage mt then m.Namer "public"
    else
      match (GetInputOutputPackageMap g.apisPkg).lookup mt.name.pkg with
      | some outPkg => m.setType (filepathBase outPkg ++ "." ++ mt.name.name)
      | none => m
  .ok (m.Do (some mt))

/-- apigen.go `(*apiGen).doInterface`: a model cannot embed an interface
(fatal); otherwise a plain named field. -/
def apiGen.doInterface (_g : apiGen) (m : GoMember) : Except String Field :=
  if m.embedded then .error (m.name ++ " used as embedded interface")
  else .ok ((NewModelMember m.name).Do (some m.type))

/-- apigen.go `(*apiGen).getPointerSourcePackageName`: fatal when the
pointer's element type is outside the source package. -/
def apiGen.getPointerSourcePackageName (g : apiGen) (t : GoType) : Except String String :=
  match t.elem with
  | none => .error "nil pointer elem"
  | some elem =>
    if g.inSourcePackage elem then .ok ("*" ++ elem.name.name)
    else .error ("pointer elem " ++ elem.name.str ++ " not in package " ++ g.sourcePackage)

/-- apigen.go `(*apiGen).doPointer`.  The call to
`getPointerSourcePackageName` is guarded by `inSourcePackage(elem)`.
(A nil `Elem`, impossible for a gengo pointer type, would be a nil
dereference in Go and is modelled as an error.) -/
def apiGen.doPointer (g : apiGen) (m : GoMember) : Except String Field :=
  match m.type.elem with
  | none => .error "nil pointer elem"
  | some elem =>
    let mem0 := NewModelMember m.name
    let step : Except String Member :=
      if g.inSourcePackage elem then
        match g.getPointerSourcePackageName m.type with
        | .error e => .error e
        | .ok s => .ok (mem0.setType s)
      else .ok mem0
    match step with
    | .error e => .error e
    | .ok mem1 =>
      .ok ((if m.embedded then (mem1.Embedded).NoTag else mem1).Do (some m.type))

/-- The kind dispatch inside apigen.go `(*apiGen).generateFor` (the local
variable `f`); the `default` branch is `klog.Fatalf("Hit an unsupported
type ...")`. -/
def apiGen.memberFunc (g : apiGen) (mem : GoMember) : Except String Field :=
  match mem.type.kind with
  | .Builtin => g.doBuiltin mem
  | .Struct => g.doStruct mem
  | .Interface => g.doInterface mem
  | .Alias => g.doAlias mem
  | .Pointer => g.doPointer mem
  | .Slice => g.doSlice mem
  | _ => .error ("Hit an unsupported type " ++ mem.name)

/-- apigen.go `(*apiGen).generateFor`: walk the model type's members in
source order, skip the sentinel base type, dispatch on the member kind, and
abort on the first fatal. -/
def apiGen.generateFor (g : apiGen) : List GoMember → Except String (List Field)
  | [] => .ok []
  | mem :: rest =>
    if isModelBase mem.type then g.generateFor rest
    else
      match g.memberFunc mem with
      | .error e => .error e
      | .ok f =>
        match g.generateFor rest with
        | .error e => .error e
        | .ok fs => .ok (f :: fs)

/-- The member kinds `generateFor` handles without a fatal error: Builtin,
Struct and Alias always; Interface only as a non-embedded field; Pointer
(whose `Elem` is always set for a gengo pointer type).  Slice and every
other kind hit a `klog.Fatalf`. -/
def supportedKind (mem : GoMember) : Bool :=
  match mem.type.kind with
  | .Builtin => true
  | .Struct => true
  | .Alias => true
  | .Interface => !mem.embedded
  | .Pointer => mem.type.elem.isSome
  | _ => false

/-! ## The method convention matcher and route/parameter/response
synthesizer (pkg/swagger-gen/generators). -/

/-- gengo `ExtractCommentTags("+", comments)[tag]`: the values of every
comment line of the form `+tag` (value `""`) or `+tag=value`. -/
def extractTagByName (comments : List String) (tag : String) : List String :=
  comments.filterMap (fun line =>
    if line == "+" ++ tag then some ""
    else
      let pre := "+" ++ tag ++ "="
      if stringHasPre pre line then some ⟨line.data.drop pre.data.length⟩ else none)

def tagIgnoreName : String := "onecloud:swagger-gen-ignore"

/-- swagger-gen `includeIgnoreTag`, applied to a declaration's comment
lines. -/
def includeIgnoreTag (comments : List String) : Bool :=
  (extractTagByName comments tagIgnoreName).length != 0

/-- gengo `types.Signature` of a method. -/
structure Signature where
  parameters : List GoType
  results    : List GoType
  deriving DecidableEq, Repr

/-- A method declaration from gengo's method table: its signature plus its
comment lines (where the ignore annotation lives). -/
structure FuncType where
  signature    : Signature
  commentLines : List String
  deriving DecidableEq, Repr

/-- swagger-gen `Method`: a matched method together with the resource
keywords it was matched under. -/
structure Method where
  resSingular : String
  resPlural   : String
  receiver    : GoType
  name        : String
  method      : FuncType
  deriving DecidableEq, Repr

/-- swagger-gen `NewMethod`. -/
def NewMethod (receiver : GoType) (name : String) (method : FuncType)
    (singular plural : String) : Method :=
  { resSingular := singular, resPlural := plural, receiver := receiver,
    name := name, method := method }

/-- swagger-gen `(*Method).Signature`. -/
def Method.Signature (m : Method) : Signature :=
  m.method.signature

/-- swagger-gen `(*Method).Params`.  Go indexes the parameter slice directly
(the matcher has already validated the arity); an out-of-range index, a
panic in Go, is modelled as `none`. -/
def Method.Params (m : Method) (idx : Nat) : Option GoType :=
  m.Signature.parameters.get? idx

/-- swagger-gen `(*Method).Resutls` (typo kept from the source). -/
def Method.Resutls (m : Method) (idx : Nat) : Option GoType :=
  m.Signature.results.get? idx

/-- swagger-gen `getTypeMethods`: scan the method table (an association list
standing for the Go map `t.Methods`, in enumeration order) for names with
the convention's prefix, drop methods carrying the ignore annotation, wrap
each survivor, and keep those accepted by the predicate. -/
def getTypeMethods (funcKeyword keyword keywordPlural : String)
    (t : GoType) (methods : List (String × FuncType))
    (predicateF : Option (Method → Bool)) : List Method :=
  methods.filterMap (fun nm =>
    if stringHasPre funcKeyword nm.1 && !includeIgnoreTag nm.2.commentLines then
      let mWrap := NewMethod t nm.1 nm.2 keyword keywordPlural
      let useIt := match predicateF with
        | some f => f mWrap
        | none => true
      if useIt then some mWrap else none
    else none)

/- The convention keyword constants (renamed from the Go `Create`, `List`,
`Get`, ... const block, which would shadow core names here). -/

def kwCreate : String := "ValidateCreateData"

def kwList : String := "ListItemFilter"

def kwGet : String := "GetExtraDetails"

def kwGetSpec : String := "GetDetails"

def kwGetProperty : String := "GetProperty"

def kwPerform : String := "Perform"

def kwUpdate : String := "ValidateUpdateData"

def kwDelete : String := "CustomizeDelete"

/-- swagger-gen `typeParser`: the manager/model type pair with their method
tables (the Go map's enumeration order as a list) and the manager instance's
resource keywords. -/
structure typeParser where
  manager        : GoType
  managerMethods : List (String × FuncType)
  model          : GoType
  modelMethods   : List (String × FuncType)
  singular       : String
  plural         : String
  deriving DecidableEq, Repr

/-- swagger-gen `(*typeParser).getMethods`. -/
def typeParser.getMethods (p : typeParser) (funcPreKeyword : String)
    (model : GoType) (methods : List (String × FuncType))
    (preF : Method → Bool) : List Method :=
  getTypeMethods funcPreKeyword p.singular p.plural model methods (some preF)

/-- swagger-gen `(*typeParser).getMethod`: the first match in enumeration
order wins (`ms[0]`). -/
def typeParser.getMethod (p : typeParser) (funcPreKeyword : String)
    (model : GoType) (methods : List (String × FuncType))
    (preF : Method → Bool) : Option Method :=
  (p.getMethods funcPreKeyword model methods preF).head?

/-- The arity predicate of `(*typeParser).createM`: exactly 5 parameters and
2 results. -/
def createPred (m : Method) : Bool :=
  m.Signature.parameters.length == 5 && m.Signature.results.length == 2

/-- swagger-gen `(*typeParser).createM`: the Create convention matcher over
the manager type's methods. -/
def typeParser.createM (p : typeParser) : Option Method :=
  p.getMethod kwCreate p.manager p.managerMethods createPred

/-- swagger-gen `privateName`. -/
def privateName (structName methodName : String) : String :=
  if structName == "" then methodName else structName ++ "_" ++ methodName

/-- Modelled from the spec: `isStructPointer` is defined in a file of the
swagger-gen generators package that is not present under src/; the spec
describes the check as "must be pointer-to-struct", so it holds exactly of a
pointer type whose element type is a struct (a nil argument fails it). -/
def isStructPointer (t : Option GoType) : Bool :=
  match t with
  | some t =>
    t.kind == .Pointer &&
      (match t.elem with
       | some e => e.kind == .Struct
       | none => false)
  | none => false

/-- `t.String()` on a possibly-nil type, used in the diagnostic strings. -/
def goTypeString (t : Option GoType) : String :=
  match t with
  | some t => t.name.str
  | none => "nil"

/-- swagger-gen `parameter`. -/
structure parameter where
  singular    : String
  plural      : String
  operationId : String
  withId      : Bool
  query       : Option GoType
  body        : Option GoType
  errorMsgs   : List String
  deriving DecidableEq, Repr

/-- swagger-gen `newParameter`. -/
def newParameter (singular plural id : String) : parameter :=
  { singular := singular, plural := plural, operationId := id,
    withId := false, query := none, body := none, errorMsgs := [] }

/-- `t.Elem` of an optional type, for `p.query = query.Elem`. -/
def optionElem (t : Option GoType) : Option GoType :=
  t.bind GoType.elem

/-- swagger-gen `paramterFactory` (typo kept from the source). -/
structure paramterFactory where
  method : Method
  deriving DecidableEq, Repr

/-- swagger-gen `(*paramterFactory).newParameter` (named `mkParameter` to
avoid capturing the top-level `newParameter` it calls). -/
def paramterFactory.mkParameter (f : paramterFactory) : parameter :=
  newParameter f.method.resSingular f.method.resPlural
    (privateName f.method.resSingular f.method.name)

/-- swagger-gen `(*paramterFactory).Create`:
pattern `func(ctx, userCred, ownerId, query, data)`; only the body is shape
checked, and a failure records a diagnostic. -/
def paramterFactory.Create (f : paramterFactory) : parameter :=
  let query := f.method.Params 3
  let body := f.method.Params 4
  let p := f.mkParameter
  let p :=
    if isStructPointer body then { p with body := body }
    else { p with errorMsgs := p.errorMsgs ++ ["unsupport body type " ++ goTypeString body] }
  { p with query := query }

/-- swagger-gen `(*paramterFactory).List`:
pattern `func(ctx, q, userCred, query)`; a query shape failure records a
diagnostic. -/
def paramterFactory.List (f : paramterFactory) : parameter :=
  let query := f.method.Params 3
  let p := f.mkParameter
  if isStructPointer query then { p with query := optionElem query }
  else { p with errorMsgs := p.errorMsgs ++ ["unsupport query type " ++ goTypeString query] }

/-- swagger-gen `(*paramterFactory).Get`:
pattern `func(ctx, userCred, query)`; a query shape failure is silently
dropped. -/
def paramterFactory.Get (f : paramterFactory) : parameter :=
  let query := f.method.Params 2
  let p := f.mkParameter
  let p := if isStructPointer query then { p with query := optionElem query } else p
  { p with withId := true }

/-- swagger-gen `(*paramterFactory).Update`:
pattern `func(ctx, userCred, query, data)`; only the body is shape checked,
and a failure records a diagnostic. -/
def paramterFactory.Update (f : paramterFactory) : parameter :=
  let query := f.method.Params 2
  let body := f.method.Params 3
  let p := f.mkParameter
  let p :=
    if isStructPointer body then { p with body := body }
    else { p with errorMsgs := p.errorMsgs ++ ["unsupport body type " ++ goTypeString body] }
  { p with query := query, withId := true }

/-- swagger-gen `(*paramterFactory).Delete`:
pattern `func(ctx, userCred, query, data)`; shape failures are silently
dropped. -/
def paramterFactory.Delete (f : paramterFactory) : parameter :=
  let query := f.method.Params 2
  let body := f.method.Params 3
  let p := f.mkParameter
  let p := if isStructPointer query then { p with query := query } else p
  let p := if isStructPointer body then { p with body := body } else p
  { p with withId := true }

/-- swagger-gen `(*paramterFactory).GetSpec`:
pattern `func(ctx, userCred, query)`; a query shape failure is silently
dropped. -/
def paramterFactory.GetSpec (f : paramterFactory) : parameter :=
  let query := f.method.Params 2
  let p := f.mkParameter
  let p := if isStructPointer query then { p with query := optionElem query } else p
  { p with withId := true }

/-- swagger-gen `(*paramterFactory).PerformAction`:
pattern `func(ctx, userCred, query, body)`; a body shape failure is silently
dropped. -/
def paramterFactory.PerformAction (f : paramterFactory) : parameter :=
  let query := f.method.Params 2
  let body := f.method.Params 3
  let p := f.mkParameter
  let p := if isStructPointer body then { p with body := body } else p
  { p with query := query, withId := true }

/-- `strings.Contains`, used by `GetValidType` for the jsonutils check. -/
def stringContains (s pat : String) : Bool :=
  (s.splitOn pat).length ≥ 2

/-- helper.go `getValidType`: a pointer contributes its element type, a
struct itself, anything else nothing. -/
def getValidType (t : Option GoType) : Option GoType :=
  match t with
  | none => none
  | some t =>
    match t.kind with
    | .Pointer => t.elem
    | .Struct => some t
    | _ => none

/-- helper.go `GetValidType`: additionally reject types from the
`yunion.io/x/jsonutils` package. -/
def GetValidType (t : Option GoType) : Option GoType :=
  match getValidType t with
  | none => none
  | some t =>
    if stringContains t.name.pkg "yunion.io/x/jsonutils" then none else some t

/-- swagger-gen `response`. -/
structure response where
  output    : Option GoType
  id        : String
  bodyKey   : String
  isList    : Bool
  errorMsgs : List String
  deriving DecidableEq, Repr

/-- swagger-gen `responseFactory`. -/
structure responseFactory where
  method : Method
  deriving DecidableEq, Repr

/-- swagger-gen `(*responseFactory).newResponse` (named `mkResponse` to keep
the call sites unambiguous). -/
def responseFactory.mkResponse (f : responseFactory) : response :=
  { output := none,
    id := privateName f.method.resSingular f.method.name ++ "Output",
    bodyKey := "", isList := false, errorMsgs := [] }

/-- swagger-gen `(*responseFactory).resultByMethod`: take the method's result
at `resultIdx` (Go indexes the slice directly; the out-of-range panic is
modelled as a `none` that fails the shape check), shape check it, and default
the body key to the plural keyword. -/
def responseFactory.resultByMethod (f : responseFactory) (method : Method)
    (resultIdx : Nat) (bodyKey : String) (ignoreErr : Bool) : response :=
  let r := f.mkResponse
  let out := method.Signature.results.get? resultIdx
  let r :=
    if isStructPointer out then { r with output := out }
    else if !ignoreErr then
      { r with errorMsgs := r.errorMsgs ++ ["unsupport type " ++ goTypeString out] }
    else r
  let bodyKey := if bodyKey == "" then f.method.resPlural else bodyKey
  { r with bodyKey := bodyKey }

/-- swagger-gen `(*responseFactory).ResultByMethod`. -/
def responseFactory.ResultByMethod (f : responseFactory) (method : Method)
    (resultIdx : Nat) (bodyKey : String) : response :=
  f.resultByMethod method resultIdx bodyKey false

/-- swagger-gen `(*responseFactory).ResultByGetMethod`. -/
def responseFactory.ResultByGetMethod (f : responseFactory) (getMethod : Method) : response :=
  f.ResultByMethod getMethod 0 f.method.resSingular

/-- swagger-gen `(*responseFactory).FirstSingularResult`. -/
def responseFactory.FirstSingularResult (f : responseFactory) : response :=
  f.ResultByMethod f.method 0 f.method.resSingular

/-- swagger-gen `(*responseFactory).FirstSingularResultNoError`. -/
def responseFactory.FirstSingularResultNoError (f : responseFactory) : response :=
  f.resultByMethod f.method 0 f.method.resSingular true

/-- swagger-gen `(*responseFactory).ListResult`: the paired read method's
first result, body key the plural keyword, marked as a list. -/
def responseFactory.ListResult (f : responseFactory) (getMethod : Method) : response :=
  let r := f.ResultByMethod getMethod 0 f.method.resPlural
  { r with isList := true }

/-- helper.go `(response).bodyStruct`: the snippet lines of the synthesized
body wrapper (template text as handed to the snippet writer; `output` is the
argument type for the `$.type|raw$` expansion). -/
def response.bodyStruct (r : response) (_output : GoType) : List String :=
  ["Body struct \x7b"] ++
  (if r.isList then
    ["Output []$.type|raw$ `json:\"" ++ r.bodyKey ++ "\"`",
     "Limit int `json:\"limit\"`",
     "Total int `json:\"total\"`",
     "Offset int `json:\"offset\"`"]
   else
    ["Output $.type|raw$ `json:\"" ++ r.bodyKey ++ "\"`"]) ++
  ["\x7d"]

/-- helper.go `(response).Do`: the emitted snippet lines of the whole
`swagger:response` declaration. -/
def response.Do (r : response) : List String :=
  ["// swagger:response " ++ r.id,
   "type " ++ r.id ++ " struct \x7b"] ++
  (match GetValidType r.output with
   | some output =>
     ["// in:body"] ++
     (if r.bodyKey != "" then r.bodyStruct output else ["$.type|raw$"])
   | none => []) ++
  ["\x7d"]

/-- swagger-gen `route`; the `response` map `map[int]*response` becomes an
association list. -/
structure route where
  action      : String
  path        : String
  parameter   : parameter
  tags        : List String
  summary     : String
  description : List String
  response    : List (Nat × response)
  deriving DecidableEq, Repr

/-- helper.go `(*route).reviseDescription`. -/
def reviseDescription (r : route) : route :=
  if r.summary != "" && r.description.length == 0 then
    { r with description := r.description ++ [r.summary] }
  else r

/-- swagger-gen `routeFactory`. -/
structure routeFactory where
  method : Method
  deriving DecidableEq, Repr

/-- helper.go `(*routeFactory).apiAction`: strip the convention's prefix from
the method name and re-case it with dashes. -/
def routeFactory.apiAction (f : routeFactory) (trimKeyword : String) : String :=
  CamelSplit (stringTrimPre f.method.name trimKeyword) "-"

/-- helper.go `(*routeFactory).newRoute` (named `mkRoute`): build the route,
override the summary when any validation diagnostic was recorded, and embed
the accumulated diagnostics into the description. -/
def routeFactory.mkRoute (f : routeFactory) (action : String)
    (input : parameter) (output : response) : route :=
  let method := f.method
  let r : route :=
    { action := action, path := "", parameter := input,
      tags := [method.resSingular], summary := "", description := [],
      response := [(200, output)] }
  let commentLines := method.method.commentLines
  let r :=
    if commentLines.length > 0 then { r with summary := commentLines.headD "" } else r
  let r :=
    if input.errorMsgs.length != 0 || output.errorMsgs.length != 0 then
      { r with summary := "input or output error exists" }
    else r
  let desc : List String :=
    (if input.errorMsgs.length != 0 then
       ["input error: " ++ String.intercalate "," input.errorMsgs]
     else []) ++
    (if output.errorMsgs.length != 0 then
       ["output error: " ++ String.intercalate "," output.errorMsgs]
     else []) ++
    (if commentLines.length > 1 then commentLines.drop 1 else [])
  reviseDescription { r with description := desc }

/-- helper.go `(*routeFactory).Create`: POST on the collection path. -/
def routeFactory.Create (f : routeFactory) (input : parameter) (output : response) : route :=
  { f.mkRoute "POST" input output with path := "/" ++ f.method.resPlural }

/-- helper.go `(*routeFactory).List`: GET on the collection path. -/
def routeFactory.List (f : routeFactory) (input : parameter) (output : response) : route :=
  { f.mkRoute "GET" input output with path := "/" ++ f.method.resPlural }

/-- helper.go `(*routeFactory).Get`. -/
def routeFactory.Get (f : routeFactory) (input : parameter) (output : response) : route :=
  { f.mkRoute "GET" input output with path := "/" ++ f.method.resPlural ++ "/{id}" }

/-- helper.go `(*routeFactory).Update`. -/
def routeFactory.Update (f : routeFactory) (input : parameter) (output : response) : route :=
  { f.mkRoute "PUT" input output with path := "/" ++ f.method.resPlural ++ "/{id}" }

/-- helper.go `(*routeFactory).Delete`. -/
def routeFactory.Delete (f : routeFactory) (input : parameter) (output : response) : route :=
  { f.mkRoute "DELETE" input output with path := "/" ++ f.method.resPlural ++ "/{id}" }

/-- helper.go `(*routeFactory).GetSpec`: GET on the derived action path. -/
def routeFactory.GetSpec (f : routeFactory) (input : parameter) (output : response) : route :=
  { f.mkRoute "GET" input output with
      path := "/" ++ f.method.resPlural ++ "/{id}/" ++ f.apiAction kwGetSpec }

/-- helper.go `(*routeFactory).PerformAction`: POST on the derived action
path. -/
def routeFactory.PerformAction (f : routeFactory) (input : parameter) (output : response) : route :=
  { f.mkRoute "POST" input output with
      path := "/" ++ f.method.resPlural ++ "/{id}/" ++ f.apiAction kwPerform }

/-! ## Concrete sample inputs (used by witnesses and counterexamples) -/

/-- A generator for the compute models package. -/
def sampleGen : apiGen :=
  { sourcePackage := "yunion.io/x/onecloud/pkg/compute/models",
    apisPkg := "yunion.io/x/onecloud/pkg/apis" }

def tyString : GoType := .atom ⟨"", "string"⟩ .Builtin

def tyTriState : GoType :=
  .alias ⟨"yunion.io/x/pkg/tristate", "TriState"⟩ .Alias tyString

def pausedMember : GoMember :=
  { name := "Paused", embedded := false, type := tyTriState }

/-- An alias that is not in the `TypeMap` override table. -/
def tyColorAlias : GoType :=
  .alias ⟨"yunion.io/x/onecloud/pkg/compute/models", "TColor"⟩ .Alias tyString

def colorMember : GoMember :=
  { name := "Color", embedded := false, type := tyColorAlias }

def tyLocalStruct : GoType :=
  .atom ⟨"yunion.io/x/onecloud/pkg/compute/models", "SDisk"⟩ .Struct

def tyExtStruct : GoType := .atom ⟨"other/pkg", "Foo"⟩ .Struct

def tyExtPtr : GoType := .compound ⟨"", "*other/pkg.Foo"⟩ .Pointer tyExtStruct

/-- A pointer member whose element type is outside the source package. -/
def extPtrMember : GoMember :=
  { name := "Ref", embedded := false, type := tyExtPtr }

def tyLocalPtr : GoType := .compound ⟨"", "*SDisk"⟩ .Pointer tyLocalStruct

def localPtrMember : GoMember :=
  { name := "Disk", embedded := false, type := tyLocalPtr }

def tyModelBase : GoType := .atom ⟨CloudCommonDBPackage, "SModelBase"⟩ .Struct

def baseMember : GoMember :=
  { name := "SModelBase", embedded := true, type := tyModelBase }

def nameMember : GoMember :=
  { name := "Name", embedded := false, type := tyString }

/-- A model type's member list: the sentinel base plus three projectable
members. -/
def sampleMembers : List GoMember :=
  [baseMember, nameMember, localPtrMember, colorMember]

def tySlice : GoType := .compound ⟨"", "[]string"⟩ .Slice tyString

def sliceMember : GoMember :=
  { name := "Tags", embedded := false, type := tySlice }

def tyCtx : GoType := .atom ⟨"context", "Context"⟩ .Interface

def tyCred : GoType := .atom ⟨"yunion.io/x/onecloud/pkg/mcclient", "TokenCredential"⟩ .Interface

def tyOwner : GoType := .atom ⟨"yunion.io/x/onecloud/pkg/mcclient", "IIdentityProvider"⟩ .Interface

def tyJSONObject : GoType := .atom ⟨"yunion.io/x/jsonutils", "JSONObject"⟩ .Interface

def tyJSONDictPtr : GoType :=
  .compound ⟨"", "*jsonutils.JSONDict"⟩ .Pointer
    (.atom ⟨"yunion.io/x/jsonutils", "JSONDict"⟩ .Struct)

def tyInputPtr : GoType :=
  .compound ⟨"", "*ServerCreateInput"⟩ .Pointer
    (.atom ⟨"yunion.io/x/onecloud/pkg/apis/compute", "ServerCreateInput"⟩ .Struct)

def tyOutputPtr : GoType :=
  .compound ⟨"", "*ServerDetails"⟩ .Pointer
    (.atom ⟨"yunion.io/x/onecloud/pkg/apis/compute", "ServerDetails"⟩ .Struct)

def tyError : GoType := .atom ⟨"", "error"⟩ .Interface

def manType : GoType :=
  .atom ⟨"yunion.io/x/onecloud/pkg/compute/models", "SServerManager"⟩ .Struct

def modelType : GoType :=
  .atom ⟨"yunion.io/x/onecloud/pkg/compute/models", "SServer"⟩ .Struct

/-- A Create-convention method declaration: 5 parameters, 2 results, its
request body (index 4) a struct pointer. -/
def miCreate5 : FuncType :=
  { signature := { parameters := [tyCtx, tyCred, tyOwner, tyJSONObject, tyInputPtr],
                   results := [tyOutputPtr, tyError] },
    commentLines := ["create a server"] }

/-- A Create-named method with only 4 parameters. -/
def miCreate4 : FuncType :=
  { signature := { parameters := [tyCtx, tyCred, tyJSONObject, tyInputPtr],
                   results := [tyOutputPtr, tyError] },
    commentLines := [] }

/-- A Create-named method with 6 parameters. -/
def miCreate6 : FuncType :=
  { signature := { parameters := [tyCtx, tyCtx, tyCred, tyOwner, tyJSONObject, tyInputPtr],
                   results := [tyOutputPtr, tyError] },
    commentLines := [] }

/-- A Create-convention method whose body argument (index 4) is not a struct
pointer. -/
def miCreateBadBody : FuncType :=
  { signature := { parameters := [tyCtx, tyCred, tyOwner, tyJSONObject, tyJSONObject],
                   results := [tyOutputPtr, tyError] },
    commentLines := [] }

/-- A Get-convention method whose query argument (index 2) is not a struct
pointer. -/
def miGetBadQuery : FuncType :=
  { signature := { parameters := [tyCtx, tyCred, tyJSONObject],
                   results := [tyOutputPtr, tyError] },
    commentLines := [] }

def mkServerMethod (name : String) (mi : FuncType) : Method :=
  NewMethod manType name mi "server" "servers"

/-- Two distinct Create-convention candidates: the same manager method table
in two enumeration orders. -/
def tableA : List (String × FuncType) :=
  [("ValidateCreateData", miCreate5), ("ValidateCreateDataExtra", miCreate5)]

def tableB : List (String × FuncType) :=
  [("ValidateCreateDataExtra", miCreate5), ("ValidateCreateData", miCreate5)]

def mkParser (tbl : List (String × FuncType)) : typeParser :=
  { manager := manType, managerMethods := tbl, model := modelType,
    modelMethods := [], singular := "server", plural := "servers" }

/-- A manager method table with exactly one Create-convention match, in two
enumeration orders. -/
def tableU1 : List (String × FuncType) :=
  [("ValidateCreateData", miCreate5), ("ValidateCreateDataFour", miCreate4)]

def tableU2 : List (String × FuncType) :=
  [("ValidateCreateDataFour", miCreate4), ("ValidateCreateData", miCreate5)]

/-- A Get-convention method whose query argument fails the shape check. -/
def mGetBad : Method := NewMethod modelType "GetExtraDetails" miGetBadQuery "server" "servers"

/-- A Create-convention method whose body argument fails the shape check. -/
def mCreateBad : Method := mkServerMethod "ValidateCreateData" miCreateBadBody

/-- A manager table with name-matching Create candidates of arity 5, 4
and 6. -/
def tableC8 : List (String × FuncType) :=
  [("ValidateCreateData", miCreate5), ("ValidateCreateDataFour", miCreate4),
   ("ValidateCreateDataSix", miCreate6)]

def parserC8 : typeParser := mkParser tableC8

/-- A Perform-convention custom action method on the servers resource. -/
def mPerformReboot : Method :=
  NewMethod modelType "PerformReboot"
    { signature := { parameters := [tyCtx, tyCred, tyJSONObject, tyInputPtr],
                     results := [tyJSONObject, tyError] },
      commentLines := ["reboot a server"] } "server" "servers"

/-! ## Helper lemmas -/

theorem strLtB_trans (as : List Char) : ∀ (bs cs : List Char),
    strLtB as bs = true → strLtB bs cs = true → strLtB as cs = true := by
  induction as with
  | nil =>
    intro bs cs h1 h2
    cases bs with
    | nil => simp [strLtB] at h1
    | cons b bs =>
      cases cs with
      | nil => simp [strLtB] at h2
      | cons c cs => simp [strLtB]
  | cons a as ih =>
    intro bs cs h1 h2
    cases bs with
    | nil => simp [strLtB] at h1
    | cons b bs =>
      cases cs with
      | nil => simp [strLtB] at h2
      | cons c cs =>
        simp only [strLtB] at h1 h2 ⊢
        by_cases hab : a.toNat < b.toNat
        · by_cases hbc : b.toNat < c.toNat
          · simp [lt_trans hab hbc]
          · by_cases hcb : c.toNat < b.toNat
            · rw [if_neg hbc, if_pos hcb] at h2
              exact absurd h2 (by simp)
            · have hbceq : b.toNat = c.toNat :=
                le_antisymm (not_lt.mp hcb) (not_lt.mp hbc)
              simp [hbceq ▸ hab]
        · by_cases hba : b.toNat < a.toNat
          · rw [if_neg hab, if_pos hba] at h1
            exact absurd h1 (by simp)
          · have habeq : a.toNat = b.toNat :=
              le_antisymm (not_lt.mp hba) (not_lt.mp hab)
            rw [if_neg hab, if_neg hba] at h1
            by_cases hbc : b.toNat < c.toNat
            · simp [habeq ▸ hbc]
            · by_cases hcb : c.toNat < b.toNat
              · rw [if_neg hbc, if_pos hcb] at h2
                exact absurd h2 (by simp)
              · have hbceq : b.toNat = c.toNat :=
                  le_antisymm (not_lt.mp hcb) (not_lt.mp hbc)
                rw [if_neg hbc, if_neg hcb] at h2
                have hac : ¬ a.toNat < c.toNat := by
                  rw [habeq, hbceq]
                  exact lt_irrefl _
                have hca : ¬ c.toNat < a.toNat := by
                  rw [habeq, hbceq]
                  exact lt_irrefl _
                rw [if_neg hac, if_neg hca]
                exact ih bs cs h1 h2

theorem strLtB_false (as : List Char) : ∀ (bs : List Char),
    strLtB as bs = false → as = bs ∨ strLtB bs as = true := by
  induction as with
  | nil =>
    intro bs h
    cases bs with
    | nil => exact .inl rfl
    | cons b bs => simp [strLtB] at h
  | cons a as ih =>
    intro bs h
    cases bs with
    | nil => exact .inr (by simp [strLtB])
    | cons b bs =>
      simp only [strLtB] at h ⊢
      by_cases hab : a.toNat < b.toNat
      · rw [if_pos hab] at h
        exact absurd h (by simp)
      · by_cases hba : b.toNat < a.toNat
        · right
          simp [hba]
        · have habeq : a.toNat = b.toNat :=
            le_antisymm (not_lt.mp hba) (not_lt.mp hab)
          have haEq : a = b := Char.ext (UInt32.ext habeq)
          rw [if_neg hab, if_neg hba] at h
          rcases ih bs h with rfl | hlt
          · exact .inl (by rw [haEq])
          · right
            rw [if_neg hba, if_neg hab]
            exact hlt

theorem stringLt_trans {a b c : String} (h1 : stringLt a b = true)
    (h2 : stringLt b c = true) : stringLt a c = true :=
  strLtB_trans a.data b.data c.data h1 h2

theorem stringLt_false {a b : String} (h : stringLt a b = false) :
    a = b ∨ stringLt b a = true := by
  rcases strLtB_false a.data b.data h with hd | hlt
  · left
    cases a
    cases b
    exact congrArg String.mk hd
  · exact .inr hlt

theorem mem_insertTag (x y : String) (l : List String) :
    y ∈ insertTag x l ↔ y = x ∨ y ∈ l := by
  induction l with
  | nil => simp [insertTag]
  | cons z zs ih =>
    simp only [insertTag]
    split
    · next hxz =>
      subst hxz
      simp only [List.mem_cons]
      tauto
    · split
      · simp only [List.mem_cons]
      · simp only [List.mem_cons, ih]
        tauto

theorem pairwise_insertTag (x : String) (l : List String)
    (h : l.Pairwise (fun a b => stringLt a b = true)) :
    (insertTag x l).Pairwise (fun a b => stringLt a b = true) := by
  induction l with
  | nil => simp [insertTag]
  | cons z zs ih =>
    rw [List.pairwise_cons] at h
    obtain ⟨hz, hzs⟩ := h
    simp only [insertTag]
    split
    · next hxz =>
      subst hxz
      rw [List.pairwise_cons]
      exact ⟨hz, hzs⟩
    · next hxz =>
      split
      · next hlt =>
        rw [List.pairwise_cons]
        refine ⟨?_, ?_⟩
        · intro b hb
          rcases List.mem_cons.mp hb with rfl | hb
          · exact hlt
          · exact stringLt_trans hlt (hz b hb)
        · rw [List.pairwise_cons]
          exact ⟨hz, hzs⟩
      · next hlt =>
        have hzx : stringLt z x = true := by
          rcases stringLt_false (Bool.eq_false_iff.mpr hlt) with rfl | hzx
          · exact absurd rfl hxz
          · exact hzx
        rw [List.pairwise_cons]
        refine ⟨?_, ih hzs⟩
        intro b hb
        rcases (mem_insertTag x b zs).mp hb with rfl | hb
        · exact hzx
        · exact hz b hb

theorem setOfList_cons (x : String) (xs init : List String) :
    setOfList (x :: xs) init = setOfList xs (insertTag x init) := rfl

theorem mem_setOfList (xs init : List String) (y : String) :
    y ∈ setOfList xs init ↔ y ∈ xs ∨ y ∈ init := by
  induction xs generalizing init with
  | nil => simp [setOfList]
  | cons x xs ih =>
    rw [setOfList_cons, ih, mem_insertTag]
    simp only [List.mem_cons]
    tauto

theorem pairwise_setOfList (xs init : List String)
    (h : init.Pairwise (fun a b => stringLt a b = true)) :
    (setOfList xs init).Pairwise (fun a b => stringLt a b = true) := by
  induction xs generalizing init with
  | nil => exact h
  | cons x xs ih => exact ih _ (pairwise_insertTag x init h)

@[simp] theorem Member.name_setType (m : Member) (s : String) :
    (m.setType s).name = m.name := rfl

@[simp] theorem Member.name_Namer (m : Member) (s : String) :
    (m.Namer s).name = m.name := rfl

@[simp] theorem Member.name_Embedded (m : Member) :
    m.Embedded.name = m.name := rfl

@[simp] theorem Member.name_NoTag (m : Member) :
    m.NoTag.name = m.name := rfl

@[simp] theorem Member.name_AddTag (m : Member) (tags : List String) :
    (m.AddTag tags).name = m.name := rfl

@[simp] theorem Member.name_Do (m : Member) (args : Option GoType) :
    (m.Do args).name = m.name := rfl

@[simp] theorem name_NewModelMember (n : String) :
    (NewModelMember n).name = n := rfl

@[simp] theorem Member.mType_setType (m : Member) (s : String) :
    (m.setType s).mType = s := rfl

@[simp] theorem Member.mType_Namer (m : Member) (s : String) :
    (m.Namer s).mType = m.mType := rfl

@[simp] theorem Member.mType_Embedded (m : Member) :
    m.Embedded.mType = m.mType := rfl

@[simp] theorem Member.mType_NoTag (m : Member) :
    m.NoTag.mType = m.mType := rfl

@[simp] theorem Member.mType_AddTag (m : Member) (tags : List String) :
    (m.AddTag tags).mType = m.mType := rfl

@[simp] theorem mType_NewModelMember (n : String) :
    (NewModelMember n).mType = "" := rfl

@[simp] theorem Member.namer_setType (m : Member) (s : String) :
    (m.setType s).namer = m.namer := rfl

@[simp] theorem Member.namer_Embedded (m : Member) :
    m.Embedded.namer = m.namer := rfl

@[simp] theorem Member.namer_NoTag (m : Member) :
    m.NoTag.namer = m.namer := rfl

@[simp] theorem Member.namer_AddTag (m : Member) (tags : List String) :
    (m.AddTag tags).namer = m.namer := rfl

@[simp] theorem namer_NewModelMember (n : String) :
    (NewModelMember n).namer = "raw" := rfl

theorem star_append_ne_empty (t : String) : (("*" ++ t) != "") = true := by
  cases t
  rfl

/-- Every supported member kind produces a field, and the field keeps the
source member's name. -/
theorem memberFunc_ok (g : apiGen) (mem : GoMember)
    (h : supportedKind mem = true) :
    ∃ f, g.memberFunc mem = .ok f ∧ f.name = mem.name := by
  unfold supportedKind at h
  unfold apiGen.memberFunc
  cases hk : mem.type.kind <;> rw [hk] at h
  case Builtin =>
    exact ⟨_, rfl, by simp [apiGen.doBuiltin]⟩
  case Struct =>
    refine ⟨_, rfl, ?_⟩
    simp only [apiGen.doStruct, Member.name_Do]
    split
    · simp [apply_ite Member.name]
    · split
      · simp [apply_ite Member.name]
      · simp [apply_ite Member.name]
  case Interface =>
    have hemb : mem.embedded = false := by simpa using h
    refine ⟨(NewModelMember mem.name).Do (some mem.type), ?_, by simp⟩
    simp [apiGen.doInterface, hemb]
  case Alias =>
    rcases hlk : TypeMap.lookup mem.type.name.name with _ | ct
    · refine ⟨(NewModelMember mem.name).Do (some (underlyingType mem.type)), ?_, by simp⟩
      simp [apiGen.doAlias, hlk]
    · refine ⟨(((NewModelMember mem.name).AddTag ct.2).setType ct.1).Do none, ?_, by simp⟩
      simp [apiGen.doAlias, hlk]
  case Pointer =>
    obtain ⟨e, he⟩ := Option.isSome_iff_exists.mp h
    by_cases hs : g.inSourcePackage e = true
    · refine ⟨((if mem.embedded then ((NewModelMember mem.name).setType
          ("*" ++ e.name.name)).Embedded.NoTag
          else (NewModelMember mem.name).setType ("*" ++ e.name.name)).Do
          (some mem.type)), ?_, ?_⟩
      · simp [apiGen.doPointer, he, hs, apiGen.getPointerSourcePackageName]
      · by_cases hemb : mem.embedded <;> simp [hemb]
    · refine ⟨((if mem.embedded then (NewModelMember mem.name).Embedded.NoTag
          else NewModelMember mem.name).Do (some mem.type)), ?_, ?_⟩
      · simp [apiGen.doPointer, he, hs]
      · by_cases hemb : mem.embedded <;> simp [hemb]
  case Slice => simp at h
  case MapK => simp at h
  case Chan => simp at h
  case Func => simp at h
  case DeclarationOf => simp at h

/-! ## Claim theorems -/

/-- Claim C4: for a model type all of whose members have kinds the projector
supports, the derived API struct gets exactly one emitted field per
projectable member (a member whose type is not the sentinel base
`SModelBase`), in source member order: the emitted field names are exactly
the projectable member names, position by position. -/
theorem generateFor_projects_members (g : apiGen) (ms : List GoMember)
    (h : ∀ mem ∈ ms, supportedKind mem = true) :
    ∃ fs, g.generateFor ms = .ok fs ∧
      fs.map Field.name = (ms.filter (fun mem => !isModelBase mem.type)).map GoMember.name ∧
      fs.length = (ms.filter (fun mem => !isModelBase mem.type)).length := by
  induction ms with
  | nil => exact ⟨[], rfl, rfl, rfl⟩
  | cons mem rest ih =>
    obtain ⟨fs, hfs, hmap, hlen⟩ := ih (fun m hm => h m (List.mem_cons_of_mem _ hm))
    by_cases hb : isModelBase mem.type
    · refine ⟨fs, ?_, ?_, ?_⟩
      · simp [apiGen.generateFor, hb, hfs]
      · simp [List.filter_cons, hb, hmap]
      · simp [List.filter_cons, hb, hlen]
    · obtain ⟨f, hf, hname⟩ := memberFunc_ok g mem (h mem (List.mem_cons_self _ _))
      refine ⟨f :: fs, ?_, ?_, ?_⟩
      · simp [apiGen.generateFor, hb, hf, hfs]
      · simp [List.filter_cons, hb, hmap, hname]
      · simp [List.filter_cons, hb, hlen]

/-- Witness for C4: the concrete member list `sampleMembers` (a sentinel base
member plus three projectable members) satisfies the hypothesis and gets
three fields. -/
theorem generateFor_projects_members_witness :
    (∀ mem ∈ sampleMembers, supportedKind mem = true) ∧
    ∃ fs, sampleGen.generateFor sampleMembers = .ok fs ∧
      fs.map Field.name =
        (sampleMembers.filter (fun mem => !isModelBase mem.type)).map GoMember.name ∧
      fs.length = (sampleMembers.filter (fun mem => !isModelBase mem.type)).length :=
  ⟨by decide, generateFor_projects_members sampleGen sampleMembers (by decide)⟩

/-- Claim C5: a member of slice kind always aborts the projection with a
fatal error, regardless of the slice's element type.  (`isModelBase` is a
pure name check and a gengo slice type is named by its `[]...` spelling, so
the hypothesis that the slice member's type is not named `SModelBase` holds
of every real slice member.) -/
theorem generateFor_slice_fatal (g : apiGen) (ms : List GoMember)
    (h : ∃ mem ∈ ms, mem.type.kind = .Slice ∧ isModelBase mem.type = false) :
    ∃ e, g.generateFor ms = .error e := by
  induction ms with
  | nil => simp at h
  | cons m rest ih =>
    obtain ⟨mem, hmem, hk, hnb⟩ := h
    rcases List.mem_cons.mp hmem with rfl | hmem2
    · refine ⟨"--slice not implement", ?_⟩
      simp [apiGen.generateFor, hnb, apiGen.memberFunc, hk, apiGen.doSlice]
    · by_cases hb : isModelBase m.type
      · obtain ⟨e, he⟩ := ih ⟨mem, hmem2, hk, hnb⟩
        exact ⟨e, by simp [apiGen.generateFor, hb, he]⟩
      · obtain ⟨e, he⟩ := ih ⟨mem, hmem2, hk, hnb⟩
        cases hmf : g.memberFunc m with
        | error e2 => exact ⟨e2, by simp [apiGen.generateFor, hb, hmf]⟩
        | ok f => exact ⟨e, by simp [apiGen.generateFor, hb, hmf, he]⟩

/-- Witness for C5: a member list with a string member followed by a
slice-typed member aborts the projection. -/
theorem generateFor_slice_fatal_witness :
    (∃ mem ∈ [nameMember, sliceMember],
        mem.type.kind = Kind.Slice ∧ isModelBase mem.type = false) ∧
    ∃ e, sampleGen.generateFor [nameMember, sliceMember] = .error e :=
  ⟨by decide, generateFor_slice_fatal sampleGen _ (by decide)⟩

/-- Claim C9: a member of alias kind whose local name resolves to the
tri-state convention in `TypeMap` is always emitted as an optional `*bool`
field whose JSON tags include `omitempty`, no matter what the alias's
underlying type is; an alias not in the override table is emitted with its
resolved underlying type instead. -/
theorem doAlias_tristate_override (g : apiGen) (mem : GoMember)
    (halias : mem.type.kind = Kind.Alias) :
    (mem.type.name.name = "TriState" →
      ∃ f, g.doAlias mem = .ok f ∧ f.typeExpr = .override "*bool" ∧
        "omitempty" ∈ f.tags) ∧
    (mem.type.name.name ≠ "TriState" →
      ∃ f, g.doAlias mem = .ok f ∧
        f.typeExpr = .template "raw" (some (underlyingType mem.type))) := by
  constructor
  · intro hname
    refine ⟨(((NewModelMember mem.name).AddTag ["omitempty"]).setType "*bool").Do none,
      ?_, rfl, ?_⟩
    · simp only [apiGen.doAlias]
      rw [hname]
      exact rfl
    · show "omitempty" ∈ setOfList (NewModelMember mem.name).jsonTags (setOfList ["omitempty"] [])
      rw [mem_setOfList]
      right
      rw [mem_setOfList]
      simp
  · intro hname
    have hbeq : (mem.type.name.name == "TriState") = false := by
      simp [hname]
    have hlk : TypeMap.lookup mem.type.name.name = none := by
      simp [TypeMap, List.lookup, hbeq]
    exact ⟨(NewModelMember mem.name).Do (some (underlyingType mem.type)),
      by simp [apiGen.doAlias, hlk], rfl⟩

/-- Witness for C9: the tri-state alias member `Paused` (underlying type
`string`) gets a `*bool` override with an `omitempty` tag; the non-override
alias member `Color` gets its underlying type. -/
theorem doAlias_tristate_override_witness :
    (tyTriState.kind = Kind.Alias ∧
      ∃ f, sampleGen.doAlias pausedMember = .ok f ∧ f.typeExpr = .override "*bool" ∧
        "omitempty" ∈ f.tags) ∧
    (tyColorAlias.kind = Kind.Alias ∧
      ∃ f, sampleGen.doAlias colorMember = .ok f ∧
        f.typeExpr = .template "raw" (some (underlyingType tyColorAlias))) :=
  ⟨⟨rfl, (doAlias_tristate_override sampleGen pausedMember rfl).1 rfl⟩,
   ⟨rfl, (doAlias_tristate_override sampleGen colorMember rfl).2 (by decide)⟩⟩

/-- Claim C10: the tag list written into the generated `json:"..."`
annotation is the alphabetically sorted — strictly increasing, hence
de-duplicated — set of all tags ever added, not their insertion order; in
particular the tri-state override on a field `Paused`, whose snake-cased
name sorts after `omitempty`, renders the tag string `omitempty,paused` with
`omitempty` first. -/
theorem addTag_sorted_dedup :
    (∀ (m : Member) (tags : List String),
      ((m.AddTag tags).jsonTags.Pairwise (fun a b => stringLt a b = true)) ∧
      (∀ x, x ∈ (m.AddTag tags).jsonTags ↔ x ∈ tags ∨ x ∈ m.jsonTags)) ∧
    (∃ f, sampleGen.doAlias pausedMember = .ok f ∧ f.tagString = "omitempty,paused") := by
  constructor
  · refine fun m tags => ⟨?_, ?_⟩
    · exact pairwise_setOfList _ _ (pairwise_setOfList _ _ List.Pairwise.nil)
    · intro x
      show x ∈ setOfList m.jsonTags (setOfList tags []) ↔ x ∈ tags ∨ x ∈ m.jsonTags
      rw [mem_setOfList, mem_setOfList]
      simp only [List.not_mem_nil, or_false]
      tauto
  · refine ⟨_, rfl, ?_⟩
    rfl

/-- Counterexample to C2: a pointer member whose element type is declared
outside the source package does not fail fast — `doPointer` emits a field
with the member's raw type.  The fatal branch of
`getPointerSourcePackageName` is unreachable from `doPointer`, which guards
the call with the very same `inSourcePackage` test. -/
theorem doPointer_external_elem_emits :
    sampleGen.inSourcePackage tyExtStruct = false ∧
    sampleGen.doPointer extPtrMember = .ok ((NewModelMember "Ref").Do (some tyExtPtr)) :=
  ⟨rfl, rfl⟩

/-- Amended C2: for a pointer member, when the element type is in the source
package the emitted field's type expression is the override `*<elem name>`;
when the element type is outside the source package the field is still
emitted — with the raw template over the member's own pointer type — and no
fatal error occurs. -/
theorem doPointer_type_expression (g : apiGen) (mem : GoMember) (elem : GoType)
    (he : mem.type.elem = some elem) :
    (g.inSourcePackage elem = true →
      ∃ f, g.doPointer mem = .ok f ∧ f.typeExpr = .override ("*" ++ elem.name.name)) ∧
    (g.inSourcePackage elem = false →
      ∃ f, g.doPointer mem = .ok f ∧ f.typeExpr = .template "raw" (some mem.type)) := by
  constructor
  · intro hs
    have hstep : g.doPointer mem =
        .ok ((if mem.embedded then ((NewModelMember mem.name).setType
                ("*" ++ elem.name.name)).Embedded.NoTag
              else (NewModelMember mem.name).setType ("*" ++ elem.name.name)).Do
              (some mem.type)) := by
      simp [apiGen.doPointer, he, hs, apiGen.getPointerSourcePackageName]
    refine ⟨_, hstep, ?_⟩
    by_cases hemb : mem.embedded <;>
      simp [hemb, Member.Do, star_append_ne_empty]
  · intro hs
    have hstep : g.doPointer mem =
        .ok ((if mem.embedded then (NewModelMember mem.name).Embedded.NoTag
              else NewModelMember mem.name).Do (some mem.type)) := by
      simp [apiGen.doPointer, he, hs]
    refine ⟨_, hstep, ?_⟩
    by_cases hemb : mem.embedded <;>
      simp [hemb, Member.Do]

/-- Witness for C2 (amended): a local-element pointer member gets the
`*SDisk` override; an external-element pointer member still yields a field
with the raw template. -/
theorem doPointer_type_expression_witness :
    (tyLocalPtr.elem = some tyLocalStruct ∧
      sampleGen.inSourcePackage tyLocalStruct = true ∧
      ∃ f, sampleGen.doPointer localPtrMember = .ok f ∧ f.typeExpr = .override "*SDisk") ∧
    (tyExtPtr.elem = some tyExtStruct ∧
      sampleGen.inSourcePackage tyExtStruct = false ∧
      ∃ f, sampleGen.doPointer extPtrMember = .ok f ∧
        f.typeExpr = .template "raw" (some tyExtPtr)) :=
  ⟨⟨rfl, rfl, (doPointer_type_expression sampleGen localPtrMember tyLocalStruct rfl).1 rfl⟩,
   ⟨rfl, rfl, (doPointer_type_expression sampleGen extPtrMember tyExtStruct rfl).2 rfl⟩⟩

/-- Counterexample to C3: the Get convention's query argument fails the
pointer-to-struct shape check, yet no diagnostic string is recorded — the
parameter's accumulated error messages stay empty, so nothing is embedded
into the route description.  Only Create (body), List (query) and Update
(body) record diagnostics. -/
theorem get_shape_failure_silent :
    isStructPointer (mGetBad.Params 2) = false ∧
    (paramterFactory.Get ⟨mGetBad⟩).errorMsgs = [] :=
  ⟨rfl, rfl⟩

/-- Amended C3: no convention aborts generation on a shape-check failure
(the factories are total), but only Create's body, List's query and
Update's body failures record a diagnostic — which is then embedded into
the route's description as an `input error:` line and overrides the summary;
Get, Delete, GetSpec and PerformAction record no diagnostic and silently
omit or pass the failing argument. -/
theorem shape_check_diagnostics :
    (∀ m : Method,
      (paramterFactory.Get ⟨m⟩).errorMsgs = [] ∧
      (paramterFactory.Delete ⟨m⟩).errorMsgs = [] ∧
      (paramterFactory.GetSpec ⟨m⟩).errorMsgs = [] ∧
      (paramterFactory.PerformAction ⟨m⟩).errorMsgs = [] ∧
      (isStructPointer (m.Params 4) = false →
        (paramterFactory.Create ⟨m⟩).errorMsgs =
          ["unsupport body type " ++ goTypeString (m.Params 4)]) ∧
      (isStructPointer (m.Params 3) = false →
        (paramterFactory.List ⟨m⟩).errorMsgs =
          ["unsupport query type " ++ goTypeString (m.Params 3)]) ∧
      (isStructPointer (m.Params 3) = false →
        (paramterFactory.Update ⟨m⟩).errorMsgs =
          ["unsupport body type " ++ goTypeString (m.Params 3)])) ∧
    (∀ (f : routeFactory) (action : String) (input : parameter) (output : response),
      input.errorMsgs ≠ [] →
        ("input error: " ++ String.intercalate "," input.errorMsgs)
            ∈ (f.mkRoute action input output).description ∧
          (f.mkRoute action input output).summary = "input or output error exists") := by
  constructor
  · intro m
    refine ⟨?_, ?_, ?_, ?_, ?_, ?_, ?_⟩
    · simp [paramterFactory.Get, paramterFactory.mkParameter, newParameter,
            apply_ite parameter.errorMsgs]
    · simp [paramterFactory.Delete, paramterFactory.mkParameter, newParameter,
            apply_ite parameter.errorMsgs]
    · simp [paramterFactory.GetSpec, paramterFactory.mkParameter, newParameter,
            apply_ite parameter.errorMsgs]
    · simp [paramterFactory.PerformAction, paramterFactory.mkParameter, newParameter,
            apply_ite parameter.errorMsgs]
    · intro h
      simp [paramterFactory.Create, paramterFactory.mkParameter, newParameter, h]
    · intro h
      simp [paramterFactory.List, paramterFactory.mkParameter, newParameter, h]
    · intro h
      simp [paramterFactory.Update, paramterFactory.mkParameter, newParameter, h]
  · intro f action input output h
    have hlen : (input.errorMsgs.length != 0) = true := by
      simpa using h
    constructor
    · simp [routeFactory.mkRoute, reviseDescription, hlen]
    · simp [routeFactory.mkRoute, reviseDescription, hlen]

/-- Witness for C3 (amended): a Get method with a bad query records nothing;
a Create method with a bad body records a diagnostic, and that diagnostic
appears in the route description while the summary is overridden. -/
theorem shape_check_diagnostics_witness :
    (paramterFactory.Get ⟨mGetBad⟩).errorMsgs = [] ∧
    isStructPointer (mCreateBad.Params 4) = false ∧
    (paramterFactory.Create ⟨mCreateBad⟩).errorMsgs =
      ["unsupport body type " ++ goTypeString (mCreateBad.Params 4)] ∧
    (("input error: " ++
        String.intercalate "," (paramterFactory.Create ⟨mCreateBad⟩).errorMsgs)
      ∈ ((routeFactory.mk mCreateBad).mkRoute "POST" (paramterFactory.Create ⟨mCreateBad⟩)
          (responseFactory.mkResponse ⟨mCreateBad⟩)).description) ∧
    ((routeFactory.mk mCreateBad).mkRoute "POST" (paramterFactory.Create ⟨mCreateBad⟩)
        (responseFactory.mkResponse ⟨mCreateBad⟩)).summary =
      "input or output error exists" :=
  ⟨(shape_check_diagnostics.1 mGetBad).1,
   rfl,
   (shape_check_diagnostics.1 mCreateBad).2.2.2.2.1 rfl,
   (shape_check_diagnostics.2 (routeFactory.mk mCreateBad) "POST"
     (paramterFactory.Create ⟨mCreateBad⟩) (responseFactory.mkResponse ⟨mCreateBad⟩)
     (by decide)).1,
   (shape_check_diagnostics.2 (routeFactory.mk mCreateBad) "POST"
     (paramterFactory.Create ⟨mCreateBad⟩) (responseFactory.mkResponse ⟨mCreateBad⟩)
     (by decide)).2⟩

/-- Claim C6: a listing-convention response is always marked `isList`, and
whenever its body wrapper struct is rendered it contains the limit, total
and offset pagination fields alongside the array-valued `Output` field. -/
theorem listResult_pagination (f : responseFactory) (getM : Method) (t : GoType) :
    (f.ListResult getM).isList = true ∧
    "Limit int `json:\"limit\"`" ∈ (f.ListResult getM).bodyStruct t ∧
    "Total int `json:\"total\"`" ∈ (f.ListResult getM).bodyStruct t ∧
    "Offset int `json:\"offset\"`" ∈ (f.ListResult getM).bodyStruct t ∧
    ("Output []$.type|raw$ `json:\"" ++ (f.ListResult getM).bodyKey ++ "\"`")
      ∈ (f.ListResult getM).bodyStruct t := by
  have hl : (f.ListResult getM).isList = true := rfl
  refine ⟨hl, ?_, ?_, ?_, ?_⟩ <;> simp [response.bodyStruct, hl]

/-- Claim C7: for a resource with plural keyword `servers`, Get, Update and
Delete produce the item path, Create and List the collection path, and the
Perform-convention method `PerformReboot` the derived action path. -/
theorem servers_route_paths (m : Method) (input : parameter) (output : response)
    (h : m.resPlural = "servers") :
    (routeFactory.Get ⟨m⟩ input output).path = "/servers/{id}" ∧
    (routeFactory.Update ⟨m⟩ input output).path = "/servers/{id}" ∧
    (routeFactory.Delete ⟨m⟩ input output).path = "/servers/{id}" ∧
    (routeFactory.Create ⟨m⟩ input output).path = "/servers" ∧
    (routeFactory.List ⟨m⟩ input output).path = "/servers" ∧
    (m.name = "PerformReboot" →
      (routeFactory.PerformAction ⟨m⟩ input output).path = "/servers/{id}/reboot") := by
  refine ⟨?_, ?_, ?_, ?_, ?_, ?_⟩
  · show "/" ++ m.resPlural ++ "/{id}" = "/servers/{id}"
    rw [h]
    rfl
  · show "/" ++ m.resPlural ++ "/{id}" = "/servers/{id}"
    rw [h]
    rfl
  · show "/" ++ m.resPlural ++ "/{id}" = "/servers/{id}"
    rw [h]
    rfl
  · show "/" ++ m.resPlural = "/servers"
    rw [h]
    rfl
  · show "/" ++ m.resPlural = "/servers"
    rw [h]
    rfl
  · intro hname
    show "/" ++ m.resPlural ++ "/{id}/" ++
        CamelSplit (stringTrimPre m.name kwPerform) "-" = "/servers/{id}/reboot"
    rw [h, hname]
    rfl

/-- Witness for C7: the concrete servers-resource method `PerformReboot`. -/
theorem servers_route_paths_witness :
    mPerformReboot.resPlural = "servers" ∧
    (routeFactory.Get ⟨mPerformReboot⟩ (paramterFactory.Get ⟨mPerformReboot⟩)
        (responseFactory.mkResponse ⟨mPerformReboot⟩)).path = "/servers/{id}" ∧
    (routeFactory.Create ⟨mPerformReboot⟩ (paramterFactory.Get ⟨mPerformReboot⟩)
        (responseFactory.mkResponse ⟨mPerformReboot⟩)).path = "/servers" ∧
    (routeFactory.PerformAction ⟨mPerformReboot⟩ (paramterFactory.Get ⟨mPerformReboot⟩)
        (responseFactory.mkResponse ⟨mPerformReboot⟩)).path = "/servers/{id}/reboot" :=
  ⟨rfl,
   (servers_route_paths mPerformReboot _ _ rfl).1,
   (servers_route_paths mPerformReboot _ _ rfl).2.2.2.1,
   (servers_route_paths mPerformReboot _ _ rfl).2.2.2.2.2 rfl⟩

/-- Claim C8: a manager method whose name carries the Create prefix and no
ignore annotation is matched by the Create convention if and only if its
signature has exactly 5 parameters and 2 results; in particular a 4- or
6-parameter name-matching method is never in the match list (and so never
the selected `createM`, which is the head of this list). -/
theorem createM_selection_iff (p : typeParser) (name : String) (mi : FuncType)
    (hmem : (name, mi) ∈ p.managerMethods)
    (hpre : stringHasPre kwCreate name = true)
    (hig : includeIgnoreTag mi.commentLines = false) :
    NewMethod p.manager name mi p.singular p.plural ∈
        p.getMethods kwCreate p.manager p.managerMethods createPred
      ↔ (mi.signature.parameters.length = 5 ∧ mi.signature.results.length = 2) := by
  unfold typeParser.getMethods getTypeMethods
  rw [List.mem_filterMap]
  constructor
  · rintro ⟨⟨n', mi'⟩, hmem', hf⟩
    simp only at hf
    by_cases hc : (stringHasPre kwCreate n' && !includeIgnoreTag mi'.commentLines) = true
    · rw [if_pos hc] at hf
      by_cases hp : createPred (NewMethod p.manager n' mi' p.singular p.plural) = true
      · rw [if_pos hp] at hf
        have heq : NewMethod p.manager n' mi' p.singular p.plural =
            NewMethod p.manager name mi p.singular p.plural := Option.some.inj hf
        have hname : n' = name := congrArg Method.name heq
        have hmi : mi' = mi := congrArg Method.method heq
        rw [hname, hmi] at hp
        simpa [createPred, Method.Signature, NewMethod] using hp
      · rw [if_neg hp] at hf
        exact absurd hf (by simp)
    · rw [if_neg hc] at hf
      exact absurd hf (by simp)
  · rintro ⟨h5, h2⟩
    refine ⟨(name, mi), hmem, ?_⟩
    have hc : (stringHasPre kwCreate name && !includeIgnoreTag mi.commentLines) = true := by
      simp [hpre, hig]
    simp only
    rw [if_pos hc]
    have hp : createPred (NewMethod p.manager name mi p.singular p.plural) = true := by
      simp [createPred, Method.Signature, NewMethod, h5, h2]
    rw [if_pos hp]

/-- Witness for C8: in a concrete table, the 5-parameter Create candidate is
matched and the 4- and 6-parameter name-matching candidates are not. -/
theorem createM_selection_iff_witness :
    (NewMethod parserC8.manager "ValidateCreateData" miCreate5
        parserC8.singular parserC8.plural ∈
      parserC8.getMethods kwCreate parserC8.manager parserC8.managerMethods createPred) ∧
    ¬ (NewMethod parserC8.manager "ValidateCreateDataFour" miCreate4
        parserC8.singular parserC8.plural ∈
      parserC8.getMethods kwCreate parserC8.manager parserC8.managerMethods createPred) ∧
    ¬ (NewMethod parserC8.manager "ValidateCreateDataSix" miCreate6
        parserC8.singular parserC8.plural ∈
      parserC8.getMethods kwCreate parserC8.manager parserC8.managerMethods createPred) :=
  ⟨(createM_selection_iff parserC8 "ValidateCreateData" miCreate5
      (by decide) (by decide) (by decide)).mpr ⟨rfl, rfl⟩,
   fun hmem => absurd
    ((createM_selection_iff parserC8 "ValidateCreateDataFour" miCreate4
      (by decide) (by decide) (by decide)).mp hmem) (by decide),
   fun hmem => absurd
    ((createM_selection_iff parserC8 "ValidateCreateDataSix" miCreate6
      (by decide) (by decide) (by decide)).mp hmem) (by decide)⟩

/-- Counterexample to C1: two manager method tables that are equal as maps
(one a permutation of the other, as a Go map's enumeration order is) make
the Create matcher select different methods, and the generated Parameter's
operation id differs — so the generated output is not a function of the
input metadata alone, and two runs over the same map need not be
byte-identical. -/
theorem method_table_order_dependence :
    tableA.Perm tableB ∧
    (mkParser tableA).createM ≠ (mkParser tableB).createM ∧
    Option.map (fun mw => (paramterFactory.Create ⟨mw⟩).operationId)
        (mkParser tableA).createM ≠
      Option.map (fun mw => (paramterFactory.Create ⟨mw⟩).operationId)
        (mkParser tableB).createM := by
  refine ⟨?_, ?_, ?_⟩
  · exact List.Perm.swap _ _ _
  · decide
  · decide

/-- Amended C1: generation is a pure function of the input including the
method-table enumeration order, and for a single-result convention the
selected method is independent of that order whenever at most one method
matches; with several matching methods the selection (and hence the
generated output) depends on the enumeration order, which for a Go map is
not stable. -/
theorem selection_order_independent_when_unique (kw s pl : String) (t : GoType)
    (ms1 ms2 : List (String × FuncType)) (pred : Method → Bool)
    (hperm : ms1.Perm ms2)
    (huniq : (getTypeMethods kw s pl t ms1 (some pred)).length ≤ 1) :
    (getTypeMethods kw s pl t ms1 (some pred)).head? =
      (getTypeMethods kw s pl t ms2 (some pred)).head? := by
  have hp : (getTypeMethods kw s pl t ms1 (some pred)).Perm
      (getTypeMethods kw s pl t ms2 (some pred)) := by
    unfold getTypeMethods
    exact hperm.filterMap _
  rcases hl : getTypeMethods kw s pl t ms1 (some pred) with _ | ⟨a, rest⟩
  · rw [hl] at hp
    rw [hp.symm.eq_nil]
  · rw [hl] at hp huniq
    have hrest : rest = [] := by
      have : rest.length = 0 := by
        simpa using huniq
      simpa [List.length_eq_zero] using this
    subst hrest
    rw [List.perm_singleton.mp hp.symm]

/-- Witness for C1 (amended): a table with exactly one Create-convention
match selects the same method under both enumeration orders. -/
theorem selection_order_independent_when_unique_witness :
    tableU1.Perm tableU2 ∧
    (getTypeMethods kwCreate "server" "servers" manType tableU1 (some createPred)).length ≤ 1 ∧
    (getTypeMethods kwCreate "server" "servers" manType tableU1 (some createPred)).head? =
      (getTypeMethods kwCreate "server" "servers" manType tableU2 (some createPred)).head? :=
  ⟨List.Perm.swap _ _ _, by decide,
   selection_order_independent_when_unique kwCreate "server" "servers" manType
     tableU1 tableU2 createPred (List.Perm.swap _ _ _) (by decide)⟩

end CodeGen
